import Mathlib

set_option maxHeartbeats 1000000

/-!
Shallow embedding of the quickey ring-menu applet: the configuration
model (`src/config_manager.py`), the window close lifecycle and
sub-button dispatch (`src/window.py`), application discovery
(`src/app_scanner.py`), and the preferences delete guard
(`src/preferences.py`).

JSON values produced by Python's `json.loads` are modelled by `JValue`;
the persisted GSettings key `buttons-json` is modelled by the result of
parsing its current string value (`Store = Option JValue`, with `none`
standing for a string `json.loads` rejects).  String operations from
Python are re-implemented structurally over `List Char` so that every
definition evaluates inside the kernel.  Real-valued geometry is
modelled over `ℝ` in the final section.
-/

/-! ## Python string helpers (structural re-implementations) -/

/-- Lexicographic-by-code-point `<=` on character lists, matching Python
string comparison. -/
def listStrLe : List Char → List Char → Bool
  | [], _ => true
  | _ :: _, [] => false
  | a :: as, b :: bs => if a == b then listStrLe as bs else decide (a.toNat < b.toNat)

/-- Python `sub in s` (substring containment) on character lists. -/
def listContainsSub (pat : List Char) : List Char → Bool
  | [] => pat.isEmpty
  | c :: cs => pat.isPrefixOf (c :: cs) || listContainsSub pat cs

/-- Python `sub in s` on strings. -/
def pyInStr (pat s : String) : Bool := listContainsSub pat.data s.data

/-- Python `s.lower()` (ASCII-adequate, via `Char.toLower`). -/
def pyLower (s : String) : String := ⟨s.data.map Char.toLower⟩

/-- Python `s.startswith(pre)`. -/
def pyStartsWith (s pre : String) : Bool := pre.data.isPrefixOf s.data

/-- Python `s.endswith(suf)`. -/
def pyEndsWith (s suf : String) : Bool := suf.data.isSuffixOf s.data

/-- Python `s[n:]` (drop the first `n` characters). -/
def pyDrop (s : String) (n : Nat) : String := ⟨s.data.drop n⟩

/-- Python `s[:-n]` (drop the last `n` characters). -/
def pyDropRight (s : String) (n : Nat) : String := ⟨s.data.take (s.data.length - n)⟩

/-- Python `s.strip()` (remove leading and trailing whitespace). -/
def pyStrip (s : String) : String :=
  ⟨((s.data.dropWhile Char.isWhitespace).reverse.dropWhile Char.isWhitespace).reverse⟩

/-- Helper for `pyReplace`: scan the character list, replacing each
non-overlapping left-to-right occurrence of `p :: ps` by `rep`.  The
`fuel` argument (instantiated with the list length) only makes the
recursion structural; every match consumes at least one character, so
fuel never runs out when it starts at the list length. -/
def pyReplaceAux (p : Char) (ps rep : List Char) : Nat → List Char → List Char
  | _, [] => []
  | 0, s => s
  | fuel + 1, c :: cs =>
      if (p :: ps).isPrefixOf (c :: cs) then
        rep ++ pyReplaceAux p ps rep fuel (cs.drop ps.length)
      else
        c :: pyReplaceAux p ps rep fuel cs

/-- Python `s.replace(pat, rep)`: replace all non-overlapping occurrences,
left to right.  (For the empty pattern Python interleaves `rep`; the
embedding is only ever applied with non-empty patterns and leaves `s`
unchanged in that case.) -/
def pyReplace (s pat rep : String) : String :=
  match pat.data with
  | [] => s
  | p :: ps => ⟨pyReplaceAux p ps rep.data s.data.length s.data⟩

/-- Python falsy-`or` on an optional string: `x or dflt` where `x` is a
possibly-`None` string. -/
def pyOrStr (x : Option String) (dflt : String) : String :=
  match x with
  | some s => if s == "" then dflt else s
  | none => dflt

/-! ## JSON values and the settings store -/

/-- A JSON value as produced by Python's `json.loads`.  Numbers are
modelled as integers: the configuration schema stores only strings and
objects, and no claim touches fractional values.  Objects produced by
`json.loads` never carry duplicate keys. -/
inductive JValue where
  | null
  | bool (b : Bool)
  | num (n : Int)
  | str (s : String)
  | arr (xs : List JValue)
  | obj (fields : List (String × JValue))

/-- Python truthiness of a JSON value: `None`, `False`, `0`, `""`, `[]`,
`{}` are falsy, everything else truthy. -/
def truthy : JValue → Bool
  | .null => false
  | .bool b => b
  | .num n => n != 0
  | .str s => s != ""
  | .arr xs => !xs.isEmpty
  | .obj fs => !fs.isEmpty

/-- The persisted `buttons-json` GSettings key, as seen through
`json.loads`: `none` models a string that fails to parse, `some v` a
string parsing to `v`.  `save_buttons` serializes with `json.dumps`, so
a saved value round-trips to exactly the stored `JValue`. -/
def Store := Option JValue

/-- `ConfigManager._create_empty_slot` (config_manager.py:68-69). -/
def createEmptySlot : JValue :=
  .obj [("name", .str "Empty"), ("icon", .str "list-add-symbolic"),
        ("type", .str "empty"), ("action", .str "")]

/-- The two normalization loops of `load_configured_buttons`
(config_manager.py:28-38): `final_buttons = [None]*8` filled with the
first 8 stored entries, then every falsy slot replaced by
`_create_empty_slot()`.  `normalizeSlots l n` produces the `n` slots,
consuming `l` from the front. -/
def normalizeSlots : List JValue → Nat → List JValue
  | _, 0 => []
  | [], n + 1 => createEmptySlot :: normalizeSlots [] n
  | b :: bs, n + 1 => (if truthy b then b else createEmptySlot) :: normalizeSlots bs n

/-- `ConfigManager.load_configured_buttons` (config_manager.py:14-40):
`json.loads` failures fall back to `[]`, non-list or falsy results are
replaced by `[]`, and the result is padded/normalized to 8 slots.
(`quickeyWindow.load_configured_buttons`, window.py:86-119, performs the
same computation.) -/
def load_configured_buttons (s : Store) : List JValue :=
  let buttons : List JValue :=
    match s with
    | some (.arr xs) => xs
    | _ => []
  normalizeSlots buttons 8

/-- The padding loop of `ConfigManager.save_buttons`
(config_manager.py:46-48): append empty slots up to 8 entries, then
truncate to 8. -/
def padTruncate8 (buttons : List JValue) : List JValue :=
  (buttons ++ List.replicate (8 - buttons.length) createEmptySlot).take 8

/-- `ConfigManager.save_buttons` (config_manager.py:42-54): pad/truncate
to 8 slots, `json.dumps`, and write the string to GSettings.  The new
store contents parse back to exactly the saved list. -/
def save_buttons (buttons : List JValue) : Store :=
  some (.arr (padTruncate8 buttons))

/-- `ConfigManager.reset_slot` (config_manager.py:56-61): load, replace
slot `index` by the canonical empty slot and save — but only when
`0 <= index < 8`; otherwise nothing is written. -/
def reset_slot (s : Store) (index : Int) : Store :=
  let buttons := load_configured_buttons s
  if 0 ≤ index ∧ index < 8 then
    save_buttons (buttons.set index.toNat createEmptySlot)
  else s

/-- Python `d.get(k)` on a parsed JSON value: defined (`some _`) only on
objects — on any other value Python raises `AttributeError`, modelled by
`none`.  The inner option is the looked-up value (`none` = key absent,
Python `None`). -/
def dictGet : JValue → String → Option (Option JValue)
  | .obj fs, k => some ((fs.find? (fun p => p.1 == k)).map (·.2))
  | _, _ => none

/-- `PreferencesWindow.on_delete` (preferences.py:101-112): in-range
indices whose slot's `action` equals `"preferences"` are rejected
(no-op); every other in-range index is cleared through
`ConfigManager.reset_slot`.  `self.buttons` is the last
`load_configured_buttons()` result.  The outer `Option` models the
`AttributeError` Python would raise when the slot is not a dict. -/
def on_delete (s : Store) (index : Int) : Option Store :=
  let buttons := load_configured_buttons s
  if 0 ≤ index ∧ index < (buttons.length : Int) then
    match buttons.get? index.toNat with
    | some b =>
      match dictGet b "action" with
      | some (some (.str a)) =>
          if a == "preferences" then some s else some (reset_slot s index)
      | some _ => some (reset_slot s index)
      | none => none
    | none => none
  else some s

/-- Projection used to state counterexamples without deciding equality of
whole `JValue`s: the `action` string of slot `i` of the loaded
configuration, when that slot is an object with a string `action`. -/
def slotActionStr (s : Store) (i : Nat) : Option String :=
  match (load_configured_buttons s).get? i with
  | some (JValue.obj fs) =>
    match (fs.find? (fun p => p.1 == "action")).map (fun p => p.2) with
    | some (JValue.str a) => some a
    | _ => none
  | _ => none

/-- Decidable check used to state claim C1: the entry is an object whose
`"type"` key is present and not JSON `null`. -/
def hasNonNullTypeField : JValue → Bool
  | .obj fs =>
    match (fs.find? (fun p => p.1 == "type")).map (fun p => p.2) with
    | some JValue.null => false
    | some _ => true
    | none => false
  | _ => false

/-! ## Basic lemmas about the configuration model -/

theorem normalizeSlots_length (l : List JValue) (n : Nat) :
    (normalizeSlots l n).length = n := by
  induction n generalizing l with
  | zero => cases l <;> rfl
  | succ n ih => cases l <;> simp [normalizeSlots, ih]

theorem truthy_createEmptySlot : truthy createEmptySlot = true := rfl

theorem normalizeSlots_truthy (l : List JValue) (n : Nat) :
    ∀ b ∈ normalizeSlots l n, truthy b = true := by
  induction n generalizing l with
  | zero => cases l <;> simp [normalizeSlots]
  | succ n ih =>
    cases l with
    | nil =>
      intro b hb
      simp only [normalizeSlots, List.mem_cons] at hb
      rcases hb with h | h
      · simp [h, truthy_createEmptySlot]
      · exact ih [] b h
    | cons x xs =>
      intro b hb
      simp only [normalizeSlots, List.mem_cons] at hb
      rcases hb with h | h
      · subst h
        by_cases hx : truthy x = true
        · simp [hx]
        · simp [hx, truthy_createEmptySlot]
      · exact ih xs b h

theorem normalizeSlots_id (l : List JValue) (n : Nat)
    (hlen : l.length = n) (htr : ∀ b ∈ l, truthy b = true) :
    normalizeSlots l n = l := by
  induction l generalizing n with
  | nil => subst hlen; rfl
  | cons x xs ih =>
    subst hlen
    have hx : truthy x = true := htr x (List.mem_cons_self x xs)
    simp [normalizeSlots, hx, ih xs.length rfl (fun b hb => htr b (List.mem_cons_of_mem x hb))]

theorem load_length (s : Store) : (load_configured_buttons s).length = 8 := by
  unfold load_configured_buttons
  exact normalizeSlots_length _ 8

theorem load_truthy (s : Store) : ∀ b ∈ load_configured_buttons s, truthy b = true := by
  unfold load_configured_buttons
  exact normalizeSlots_truthy _ 8

theorem padTruncate8_of_length8 (l : List JValue) (h : l.length = 8) :
    padTruncate8 l = l := by
  unfold padTruncate8
  simp [h]

theorem load_save_of_good (l : List JValue)
    (hlen : l.length = 8) (htr : ∀ b ∈ l, truthy b = true) :
    load_configured_buttons (save_buttons l) = l := by
  unfold load_configured_buttons save_buttons
  rw [padTruncate8_of_length8 l hlen]
  exact normalizeSlots_id l 8 hlen htr

/-! ## Claims C1–C4 -/

/-- C1 (amended): for every persisted configuration string,
`ConfigManager.load_configured_buttons` returns without raising a list
of exactly 8 entries, each of which is Python-truthy (in particular
never null) — falsy or missing stored entries are replaced by the
canonical empty slot.  (The original claim's "non-null `type` field" is
refuted by `C1_counterexample`.) -/
theorem C1_load_shape (parsed : Store) (i : Nat) (b : JValue) :
    (load_configured_buttons parsed).length = 8 ∧
    ((load_configured_buttons parsed).get? i = some b → truthy b = true) := by
  refine ⟨load_length parsed, fun h => ?_⟩
  exact load_truthy parsed b (List.get?_mem h)

theorem C1_load_shape_witness :
    (load_configured_buttons none).length = 8 ∧ truthy createEmptySlot = true :=
  ⟨(C1_load_shape none 0 createEmptySlot).1,
   (C1_load_shape none 0 createEmptySlot).2 rfl⟩

/-- C1 counterexample: a stored string parsing to `[{"name": "x"}]` loads
to a list whose first entry is the truthy object `{"name": "x"}`, which
has no `type` field at all — so not every loaded entry has a non-null
`type` field. -/
theorem C1_counterexample :
    ((load_configured_buttons (some (.arr [.obj [("name", .str "x")]]))).all
      hasNonNullTypeField) = false := by rfl

/-- C2 (amended): the preferences delete operation
(`PreferencesWindow.on_delete`) whose target slot has
`action == "preferences"` leaves the store unchanged — the deletion
request is rejected as a no-op.  (`ConfigManager.reset_slot` itself
performs no such check and resets any in-range slot, including a
preferences slot: `C2_counterexample`.) -/
theorem C2_on_delete_preferences_noop (s : Store) (i : Int) (b : JValue)
    (hslot : (load_configured_buttons s).get? i.toNat = some b)
    (hact : dictGet b "action" = some (some (.str "preferences"))) :
    on_delete s i = some s := by
  unfold on_delete
  by_cases hrange : 0 ≤ i ∧ i < ((load_configured_buttons s).length : Int)
  · simp only [if_pos hrange, hslot, hact, beq_self_eq_true, if_true]
  · simp only [if_neg hrange]

theorem C2_on_delete_preferences_noop_witness :
    on_delete (some (.arr [.obj [("action", .str "preferences")]])) 0 =
      some (some (.arr [.obj [("action", .str "preferences")]])) :=
  C2_on_delete_preferences_noop
    (some (.arr [.obj [("action", .str "preferences")]])) 0
    (.obj [("action", .str "preferences")]) rfl rfl

/-- C2 counterexample: `ConfigManager.reset_slot` is a delete-style
operation, yet applied to index 0 of a configuration whose slot 0 has
`action == "preferences"` it replaces the slot with the canonical empty
slot — the action string changes from `"preferences"` to `""`, so the
preferences slot is not left unchanged. -/
theorem C2_counterexample :
    slotActionStr (some (.arr [.obj [("action", .str "preferences")]])) 0 =
      some "preferences" ∧
    slotActionStr
      (reset_slot (some (.arr [.obj [("action", .str "preferences")]])) 0) 0 =
      some "" := ⟨by decide, by decide⟩

/-- C3: resetting an in-range slot then loading yields the canonical
empty slot at that position; resetting an out-of-range index (such as 8
or -1) leaves the persisted configuration untouched. -/
theorem C3_reset_slot_spec (s : Store) (i : Int) :
    (0 ≤ i ∧ i < 8 →
      (load_configured_buttons (reset_slot s i)).get? i.toNat = some createEmptySlot) ∧
    (¬(0 ≤ i ∧ i < 8) → reset_slot s i = s) := by
  constructor
  · intro hr
    unfold reset_slot
    rw [if_pos hr]
    have hlen : ((load_configured_buttons s).set i.toNat createEmptySlot).length = 8 := by
      rw [List.length_set, load_length]
    have htr : ∀ b ∈ (load_configured_buttons s).set i.toNat createEmptySlot,
        truthy b = true := by
      intro b hb
      rcases List.mem_or_eq_of_mem_set hb with h | h
      · exact load_truthy s b h
      · rw [h]; exact truthy_createEmptySlot
    rw [load_save_of_good _ hlen htr]
    have hi : i.toNat < (load_configured_buttons s).length := by
      rw [load_length]; omega
    rw [List.get?_eq_getElem?]
    exact List.getElem?_set_self hi
  · intro hr
    unfold reset_slot
    rw [if_neg hr]

theorem C3_reset_slot_spec_witness :
    (load_configured_buttons (reset_slot none 3)).get? 3 = some createEmptySlot ∧
    reset_slot none (-1) = none :=
  ⟨(C3_reset_slot_spec none 3).1 (by decide), (C3_reset_slot_spec none (-1)).2 (by decide)⟩

/-- C4: save after load is idempotent — for every stored configuration,
saving the loaded list and loading again yields exactly the same 8-slot
list as the first load. -/
theorem C4_save_load_idempotent (s : Store) :
    load_configured_buttons (save_buttons (load_configured_buttons s)) =
      load_configured_buttons s :=
  load_save_of_good _ (load_length s) (load_truthy s)

/-! ## Window close lifecycle (`quickeyWindow.animate_quit`, window.py:879-914) -/

/-- The window state relevant to the close lifecycle: the single-shot
`self.is_quitting` flag (window.py:28, 880, 884) and the number of
primary ring buttons (`len(self.ring_buttons)`). -/
structure QuitState where
  is_quitting : Bool
  num_buttons : Nat

/-- Observable steps of the close sequence, in the order the scheduled
`hide_button` chain performs them (window.py:887-905). -/
inductive QuitEvent where
  | hidePrimary (i : Nat)
  | hideSubButtons (i : Nat)
  | hideSubLabels (i : Nat)
  | hideCloseButton
  | quitApp
  | destroyWindow
  deriving DecidableEq

/-- The strictly ordered `hide_button` chain (window.py:887-905): each
step pops the next index, hides that primary button, its satellite
sub-buttons and their labels, and re-schedules itself; once the index
list is empty it hides the center close control and schedules exactly
one teardown (`app.quit` or `self.destroy`, per `should_quit_app`). -/
def hideButtonSeq (should_quit_app : Bool) : List Nat → List QuitEvent
  | [] => [.hideCloseButton, if should_quit_app then .quitApp else .destroyWindow]
  | i :: rest =>
      .hidePrimary i :: .hideSubButtons i :: .hideSubLabels i ::
        hideButtonSeq should_quit_app rest

/-- The index order of the close animation (window.py:909-911):
`[0] + list(range(num - 1, 0, -1))`, i.e. slot 0 then the remaining
indices descending to 1.  Only used when `num > 0`. -/
def quitHideOrder (num : Nat) : List Nat :=
  0 :: (List.range' 1 (num - 1)).reverse

/-- `quickeyWindow.animate_quit` (window.py:879-914): ignored outright
when `is_quitting` is already set; otherwise sets the flag, and either
runs the staggered hide chain (when there are ring buttons) or quits the
app immediately.  Returns the new state and the trace of events the call
produces (directly or through its scheduled continuations). -/
def animate_quit (st : QuitState) (should_quit_app : Bool) : QuitState × List QuitEvent :=
  if st.is_quitting then (st, [])
  else
    let st' : QuitState := { st with is_quitting := true }
    if st.num_buttons > 0 then
      (st', hideButtonSeq should_quit_app (quitHideOrder st.num_buttons))
    else
      (st', [.quitApp])

/-- Whether an event is a teardown effect (an app quit or a window
destroy scheduling). -/
def isTeardown : QuitEvent → Bool
  | .quitApp => true
  | .destroyWindow => true
  | _ => false

/-- A sequence of close requests against one window lifecycle: each
request invokes `animate_quit` with its `should_quit_app` flag, and the
produced events are concatenated. -/
def runCloseRequests : QuitState → List Bool → QuitState × List QuitEvent
  | st, [] => (st, [])
  | st, b :: bs =>
      let r1 := animate_quit st b
      let r2 := runCloseRequests r1.1 bs
      (r2.1, r1.2 ++ r2.2)

/-- The index hidden by a `hidePrimary` event, if any. -/
def primaryHideIndex : QuitEvent → Option Nat
  | .hidePrimary i => some i
  | _ => none

theorem animate_quit_sets_flag (st : QuitState) (b : Bool) :
    (animate_quit st b).1.is_quitting = (true : Bool) ∨ (animate_quit st b).1 = st := by
  unfold animate_quit
  by_cases h : st.is_quitting
  · right; rw [if_pos h]
  · left
    rw [if_neg h]
    by_cases hn : st.num_buttons > 0 <;> simp [hn]

theorem animate_quit_of_quitting (st : QuitState) (b : Bool)
    (h : st.is_quitting = true) : animate_quit st b = (st, []) := by
  unfold animate_quit
  rw [if_pos h]

theorem hideButtonSeq_teardown_count (b : Bool) (l : List Nat) :
    ((hideButtonSeq b l).filter isTeardown).length = 1 := by
  induction l with
  | nil => cases b <;> rfl
  | cons i rest ih => simpa [hideButtonSeq, isTeardown] using ih

theorem animate_quit_teardown_le_one (st : QuitState) (b : Bool) :
    (((animate_quit st b).2).filter isTeardown).length ≤ 1 := by
  unfold animate_quit
  cases hq : st.is_quitting with
  | true => simp
  | false =>
    by_cases hn : st.num_buttons > 0
    · simp [hn, hideButtonSeq_teardown_count]
    · simp [hn, isTeardown]

theorem runCloseRequests_of_quitting (st : QuitState) (bs : List Bool)
    (h : st.is_quitting = true) : runCloseRequests st bs = (st, []) := by
  induction bs with
  | nil => rfl
  | cons b bs ih =>
    unfold runCloseRequests
    rw [animate_quit_of_quitting st b h]
    simp [ih]

/-- C5: close requests are idempotent per window lifecycle.  Starting
from a fresh (not-yet-quitting) window, a second `animate_quit` while a
close is already in progress produces no events at all, and an arbitrary
sequence of close requests produces at most one teardown effect (one
app-quit or one window-destroy scheduling). -/
theorem C5_close_idempotent (st : QuitState) (b1 b2 : Bool) (bs : List Bool)
    (h : st.is_quitting = false) :
    (animate_quit (animate_quit st b1).1 b2).2 = [] ∧
    (((runCloseRequests st bs).2).filter isTeardown).length ≤ 1 := by
  have hflag : (animate_quit st b1).1.is_quitting = true := by
    unfold animate_quit
    rw [if_neg (by simp [h])]
    by_cases hn : st.num_buttons > 0 <;> simp [hn]
  constructor
  · rw [animate_quit_of_quitting _ b2 hflag]
  · cases bs with
    | nil => simp [runCloseRequests]
    | cons b bs =>
      have hflag' : (animate_quit st b).1.is_quitting = true := by
        unfold animate_quit
        rw [if_neg (by simp [h])]
        by_cases hn : st.num_buttons > 0 <;> simp [hn]
      simp only [runCloseRequests]
      rw [runCloseRequests_of_quitting _ bs hflag']
      simpa using animate_quit_teardown_le_one st b

theorem C5_close_idempotent_witness :
    (animate_quit (animate_quit ⟨false, 8⟩ true).1 true).2 = [] ∧
    (((runCloseRequests ⟨false, 8⟩ [true, true, false]).2).filter isTeardown).length ≤ 1 :=
  C5_close_idempotent ⟨false, 8⟩ true true [true, true, false] rfl

/-- C6: with 8 primary buttons, the close animation visits the primary
slot indices in exactly the order `[0,7,6,5,4,3,2,1]`, and hides each
visited button's satellite sub-buttons and satellite labels along with
it. -/
theorem C6_close_order (st : QuitState) (b : Bool)
    (hn : st.num_buttons = 8) (hq : st.is_quitting = false) :
    ((animate_quit st b).2.filterMap primaryHideIndex = [0, 7, 6, 5, 4, 3, 2, 1]) ∧
    (∀ i ∈ [0, 7, 6, 5, 4, 3, 2, 1],
      QuitEvent.hideSubButtons i ∈ (animate_quit st b).2 ∧
      QuitEvent.hideSubLabels i ∈ (animate_quit st b).2) := by
  obtain ⟨q, n⟩ := st
  simp only at hn hq
  subst hn; subst hq
  cases b <;> decide

theorem C6_close_order_witness :
    ((animate_quit ⟨false, 8⟩ true).2.filterMap primaryHideIndex =
      [0, 7, 6, 5, 4, 3, 2, 1]) ∧
    (∀ i ∈ [0, 7, 6, 5, 4, 3, 2, 1],
      QuitEvent.hideSubButtons i ∈ (animate_quit ⟨false, 8⟩ true).2 ∧
      QuitEvent.hideSubLabels i ∈ (animate_quit ⟨false, 8⟩ true).2) :=
  C6_close_order ⟨false, 8⟩ true rfl rfl

/-! ## Sub-button dispatch (`quickeyWindow.on_sub_button_clicked`, window.py:292-308) -/

/-- Effects a sub-button click can produce: an MPRIS transport command
followed by a ring refresh, hiding the window, scheduling a deferred
screenshot (`GLib.timeout_add_seconds(delay, handle_screenshot_portal,
clean_mode)`), or an immediate screenshot portal call. -/
inductive SubEffect where
  | mprisCommand (cmd : String)
  | refreshAll
  | hideWindow
  | scheduleScreenshot (delaySeconds : Nat) (mode : String)
  | screenshotNow (mode : String)
  deriving DecidableEq

/-- `quickeyWindow.on_sub_button_clicked` (window.py:292-308): media
transport verbs go to MPRIS and refresh the ring; any action containing
`"screenshot"` strips the `"screenshot_"` prefix, derives a 5-second
delay exactly when `"_5s"` occurs, strips `"_5s"` to get the base mode,
and either schedules one deferred capture (hiding the window first) or
captures immediately. -/
def on_sub_button_clicked (action : String) : List SubEffect :=
  if action ∈ ["Previous", "Next", "Backward10", "Forward10", "PlayPause", "Stop"] then
    [.mprisCommand action, .refreshAll]
  else if pyInStr "screenshot" action then
    let mode := pyReplace action "screenshot_" ""
    let delay : Nat := if pyInStr "_5s" mode then 5 else 0
    let clean_mode := pyReplace mode "_5s" ""
    if delay > 0 then
      [.hideWindow, .scheduleScreenshot delay clean_mode]
    else
      [.screenshotNow clean_mode]
  else []

/-- Whether an effect is a deferred screenshot scheduling. -/
def isScheduledCapture : SubEffect → Bool
  | .scheduleScreenshot _ _ => true
  | _ => false

/-- C9: dispatching `"screenshot_area_5s"` derives base mode `"area"`
and delay 5 and schedules exactly one deferred capture; in general the
`screenshot_<mode>[_5s]` convention (mode in `{area, window, full}`)
yields exactly one 5-second deferred capture of the base mode when the
`"_5s"` suffix is present, and one immediate capture of the unchanged
base mode otherwise. -/
theorem C9_screenshot_dispatch (m : String) (hm : m ∈ ["area", "window", "full"]) :
    (on_sub_button_clicked "screenshot_area_5s" =
      [.hideWindow, .scheduleScreenshot 5 "area"]) ∧
    ((on_sub_button_clicked "screenshot_area_5s").filter isScheduledCapture).length = 1 ∧
    on_sub_button_clicked ("screenshot_" ++ m ++ "_5s") =
      [.hideWindow, .scheduleScreenshot 5 m] ∧
    on_sub_button_clicked ("screenshot_" ++ m) = [.screenshotNow m] := by
  fin_cases hm <;> decide

theorem C9_screenshot_dispatch_witness :
    (on_sub_button_clicked "screenshot_area_5s" =
      [.hideWindow, .scheduleScreenshot 5 "area"]) ∧
    ((on_sub_button_clicked "screenshot_area_5s").filter isScheduledCapture).length = 1 ∧
    on_sub_button_clicked ("screenshot_" ++ "area" ++ "_5s") =
      [.hideWindow, .scheduleScreenshot 5 "area"] ∧
    on_sub_button_clicked ("screenshot_" ++ "area") = [.screenshotNow "area"] :=
  C9_screenshot_dispatch "area" (by decide)

/-! ## Application discovery (`AppScanner`, app_scanner.py) -/

/-- An action descriptor as built by `AppScanner` (a Python dict).  The
built-in and Gio-sourced dicts carry no `hidden`/`is_flatpak` keys;
those fields are `false` there (no claim reads them on such entries). -/
structure ActionDesc where
  name : String
  icon : String
  type : String
  action : String
  desc : String
  group : String
  hidden : Bool
  is_flatpak : Bool
  deriving DecidableEq

/-- One entry of `Gio.AppInfo.get_all()` as observed by the scanner:
`should_show()`, `get_id()` (possibly `None`), `get_name()`,
`get_icon()` (`none` models a null `GIcon`), `get_executable()` and
`get_description()`. -/
structure GioApp where
  should_show : Bool
  id : Option String
  name : String
  icon : Option String
  executable : Option String
  description : Option String
  deriving DecidableEq

/-- The observable result of `Gio.DesktopAppInfo.new_from_filename` on
one desktop file (when it yields a truthy object without raising). -/
structure DesktopGio where
  name : Option String
  icon : Option String
  description : Option String
  nodisplay : Bool
  deriving DecidableEq

/-- One scan location: its path and the result of `os.listdir`
(`none` models a missing directory or a listing error). -/
structure ScanDir where
  path : String
  listing : Option (List String)

/-- The identifier normalization of app_scanner.py:35 and :71 — strip a
trailing `".desktop"` (8 characters). -/
def normId (s : String) : String :=
  if pyEndsWith s ".desktop" then pyDropRight s 8 else s

/-- The `builtins` list (app_scanner.py:16-21), in its fixed order. -/
def builtins : List ActionDesc :=
  [{ name := "Media", icon := "multimedia-player", type := "internal",
     action := "media", desc := "Play/Pause and media controls",
     group := "Built-in Action", hidden := false, is_flatpak := false },
   { name := "Files", icon := "system-file-manager", type := "internal",
     action := "files", desc := "Open File Manager",
     group := "Built-in Action", hidden := false, is_flatpak := false },
   { name := "Screenshot", icon := "applets-screenshooter", type := "internal",
     action := "screenshot", desc := "Take a screenshot",
     group := "Built-in Action", hidden := false, is_flatpak := false },
   { name := "Quickey Preferences", icon := "open-menu", type := "internal",
     action := "preferences", desc := "Configure Quickey settings",
     group := "Built-in Action", hidden := false, is_flatpak := false }]

/-- The synthetic Custom Command entry (app_scanner.py:85-92). -/
def customEntry : ActionDesc :=
  { name := "Custom Command", icon := "utilities-terminal-symbolic",
    type := "command", action := "", desc := "Type in a custom command",
    group := "Custom", hidden := false, is_flatpak := false }

/-- The descriptor built for one shown Gio app (app_scanner.py:38-47). -/
def gioEntry (a : GioApp) : ActionDesc :=
  { name := a.name,
    icon := match a.icon with | some i => i | none => "system-run-symbolic",
    type := "app",
    action := pyOrStr a.id (pyOrStr a.executable ""),
    desc := pyOrStr a.description "",
    group := "Applications", hidden := false, is_flatpak := false }

/-- Python truthiness of `app.get_id()`. -/
def gioIdTruthy (a : GioApp) : Bool :=
  match a.id with
  | some s => s != ""
  | none => false

/-- The Gio discovery loop (app_scanner.py:30-47): for each shown app,
record its normalized id in the seen set (when the id is truthy) and
append its descriptor.  `seen` is modelled as a list used only through
membership. -/
def gioScan : List GioApp → List String → List ActionDesc → List String × List ActionDesc
  | [], seen, acc => (seen, acc)
  | a :: rest, seen, acc =>
      if a.should_show then
        let seen' :=
          match a.id with
          | some s => if s == "" then seen else normId s :: seen
          | none => seen
        gioScan rest seen' (acc ++ [gioEntry a])
      else gioScan rest seen acc

/-- Python truthiness of an optional string (`not name`). -/
def optFalsy : Option String → Bool
  | none => true
  | some s => s == ""

/-- The mutable locals of `_parse_desktop_file`'s manual fallback:
`name`, `icon_name`, `desc`, `hidden` (app_scanner.py:100). -/
structure ManualState where
  name : Option String
  icon : String
  desc : String
  hidden : Bool
  deriving DecidableEq

/-- Everything after the first `'='` of the line
(`line.split("=", 1)[1]`, app_scanner.py:132). -/
def afterFirstEq : List Char → List Char
  | [] => []
  | c :: cs => if c == '=' then cs else afterFirstEq cs

/-- The line loop of `_parse_desktop_file`'s manual fallback
(app_scanner.py:117-134): strip each line, enter at `[Desktop Entry]`,
stop at the next section header, and extract `Name=`, `Icon=`,
`GenericName=`/`Comment=` and `NoDisplay=` with the original guards. -/
def manualScan : Bool → List String → ManualState → ManualState
  | _, [], st => st
  | inDE, line :: rest, st =>
      let l := pyStrip line
      if l == "[Desktop Entry]" then manualScan true rest st
      else if inDE && pyStartsWith l "[" then st
      else if inDE then
        if pyStartsWith l "Name=" && optFalsy st.name then
          manualScan inDE rest { st with name := some (pyStrip (pyDrop l 5)) }
        else if pyStartsWith l "Icon=" &&
            (st.icon == "system-run-symbolic" || st.icon == "") then
          manualScan inDE rest { st with icon := pyStrip (pyDrop l 5) }
        else if (pyStartsWith l "GenericName=" || pyStartsWith l "Comment=") &&
            st.desc == "" then
          manualScan inDE rest { st with desc := pyStrip ⟨afterFirstEq l.data⟩ }
        else if pyStartsWith l "NoDisplay=" then
          manualScan inDE rest { st with hidden := pyLower (pyDrop l 10) == "true" }
        else manualScan inDE rest st
      else manualScan inDE rest st

/-- The Gio stage of `_parse_desktop_file` (app_scanner.py:100-112):
initial locals, overwritten from `Gio.DesktopAppInfo` when it produced a
truthy object (`none` also models a raised exception there). -/
def parseInitState (gio : Option DesktopGio) : ManualState :=
  match gio with
  | some g =>
      { name := g.name,
        icon := match g.icon with | some i => i | none => "system-run-symbolic",
        desc := pyOrStr g.description "",
        hidden := g.nodisplay }
  | none => { name := none, icon := "system-run-symbolic", desc := "", hidden := false }

/-- The state of `_parse_desktop_file`'s locals after the manual
fallback, which only runs when `name` is still falsy and the file could
be opened (`content = none` models an `open` failure). -/
def parseFinalState (gio : Option DesktopGio) (content : Option (List String)) :
    ManualState :=
  let init := parseInitState gio
  if optFalsy init.name then
    match content with
    | some lines => manualScan false lines init
    | none => init
  else init

/-- `AppScanner._parse_desktop_file` (app_scanner.py:97-147): the
returned descriptor, with the Python falsy-`or` fallbacks of
app_scanner.py:138-147 applied. -/
def parse_desktop_file (path file_name : String) (gio : Option DesktopGio)
    (content : Option (List String)) : ActionDesc :=
  let st := parseFinalState gio content
  { name := pyOrStr st.name file_name,
    icon := if st.icon == "" then "system-run-symbolic" else st.icon,
    type := "app",
    action := file_name,
    desc := st.desc,
    group := "Applications",
    hidden := st.hidden,
    is_flatpak := pyInStr "flatpak" (pyLower path) }

/-- The per-directory file loop of the manual scan fallback
(app_scanner.py:66-76): consider only `.desktop` files, skip normalized
ids already seen, otherwise parse and record.  `env` supplies, per
`(path, file_name)`, the Gio parse result and the file's lines. -/
def fileScan (env : String → String → Option DesktopGio × Option (List String))
    (path : String) :
    List String → List String → List ActionDesc → List String × List ActionDesc
  | [], seen, acc => (seen, acc)
  | f :: fs, seen, acc =>
      if pyEndsWith f ".desktop" then
        let n := pyDropRight f 8
        if seen.contains n then fileScan env path fs seen acc
        else fileScan env path fs (n :: seen)
               (acc ++ [parse_desktop_file path f (env path f).1 (env path f).2])
      else fileScan env path fs seen acc

/-- The scan over the ordered fallback locations (app_scanner.py:61-79):
missing directories and listing errors are skipped. -/
def dirScan (env : String → String → Option DesktopGio × Option (List String)) :
    List ScanDir → List String → List ActionDesc → List String × List ActionDesc
  | [], seen, acc => (seen, acc)
  | d :: rest, seen, acc =>
      match d.listing with
      | none => dirScan env rest seen acc
      | some files =>
          let r := fileScan env d.path files seen acc
          dirScan env rest r.1 r.2

/-- Stable insertion into a list sorted by lower-cased name.  Together
with `sortByName` this models Python's stable
`sorted(..., key=lambda x: x["name"].lower())` (app_scanner.py:82): for
the total preorder `listStrLe` on lower-cased names there is exactly one
stable sorted rearrangement, so any stable sort computes the same
list. -/
def insertByName (a : ActionDesc) : List ActionDesc → List ActionDesc
  | [] => [a]
  | b :: bs =>
      if listStrLe (pyLower a.name).data (pyLower b.name).data then a :: b :: bs
      else b :: insertByName a bs

/-- Stable sort by lower-cased name (see `insertByName`). -/
def sortByName : List ActionDesc → List ActionDesc
  | [] => []
  | a :: as => insertByName a (sortByName as)

/-- `AppScanner.get_all_actions` (app_scanner.py:10-95): built-ins, then
the Gio-discovered apps, then the filesystem-scan fallback, with the
application section sorted case-insensitively by name and the synthetic
Custom Command entry appended last. -/
def get_all_actions (gioApps : List GioApp) (dirs : List ScanDir)
    (env : String → String → Option DesktopGio × Option (List String)) :
    List ActionDesc :=
  let g := gioScan gioApps [] []
  let r := dirScan env dirs g.1 g.2
  builtins ++ sortByName r.2 ++ [customEntry]

/-- The normalized identifiers of the `Applications`-group entries of a
descriptor list, in order. -/
def appsNormIds (l : List ActionDesc) : List String :=
  (l.filter (fun d => d.group == "Applications")).map (fun d => normId d.action)

/-- The normalized identifiers the Gio loop records, in discovery order
(meaningful when every shown app has a truthy id). -/
def gioNormIds (apps : List GioApp) : List String :=
  (apps.filter (fun a => a.should_show)).map (fun a => normId (pyOrStr a.id ""))

/-! ## Lemmas about the scanner -/

theorem pyOrStr_some_of_ne (s d : String) (h : s ≠ "") : pyOrStr (some s) d = s := by
  simp [pyOrStr, h]

theorem pyOrStr_of_falsy (o : Option String) (d : String) (h : optFalsy o = true) :
    pyOrStr o d = d := by
  cases o with
  | none => rfl
  | some s =>
    simp only [optFalsy] at h
    simp [pyOrStr, h]

theorem parse_group (path f : String) (gio : Option DesktopGio)
    (content : Option (List String)) :
    (parse_desktop_file path f gio content).group = "Applications" := rfl

theorem parse_action (path f : String) (gio : Option DesktopGio)
    (content : Option (List String)) :
    (parse_desktop_file path f gio content).action = f := rfl

theorem gioEntry_group (a : GioApp) : (gioEntry a).group = "Applications" := rfl

theorem normId_of_desktop (f : String) (h : pyEndsWith f ".desktop" = true) :
    normId f = pyDropRight f 8 := by
  simp [normId, h]

theorem appsNormIds_append (l₁ l₂ : List ActionDesc) :
    appsNormIds (l₁ ++ l₂) = appsNormIds l₁ ++ appsNormIds l₂ := by
  simp [appsNormIds, List.filter_append]

theorem appsNormIds_parse_single (path f : String) (gio : Option DesktopGio)
    (content : Option (List String)) :
    appsNormIds [parse_desktop_file path f gio content] = [normId f] := by
  simp [appsNormIds, List.filter_cons, parse_group, parse_action]

theorem gioScan_entries (apps : List GioApp) :
    ∀ (seen : List String) (acc : List ActionDesc),
    (gioScan apps seen acc).2 = acc ++ (apps.filter (fun a => a.should_show)).map gioEntry := by
  induction apps with
  | nil => intro seen acc; simp [gioScan]
  | cons a rest ih =>
    intro seen acc
    by_cases h : a.should_show
    · simp [gioScan, h, ih, List.filter_cons]
    · simp [gioScan, h, ih, List.filter_cons]

theorem gioScan_seen_mem (apps : List GioApp) :
    ∀ (seen : List String) (acc : List ActionDesc),
    (∀ a ∈ apps, a.should_show = true → gioIdTruthy a = true) →
    ∀ n, n ∈ (gioScan apps seen acc).1 ↔ (n ∈ seen ∨ n ∈ gioNormIds apps) := by
  induction apps with
  | nil => intro seen acc _ n; simp [gioScan, gioNormIds]
  | cons a rest ih =>
    intro seen acc h n
    have hrest : ∀ b ∈ rest, b.should_show = true → gioIdTruthy b = true :=
      fun b hb => h b (List.mem_cons_of_mem a hb)
    by_cases hs : a.should_show
    · have htr : gioIdTruthy a = true := h a (List.mem_cons_self a rest) hs
      cases hid : a.id with
      | none => rw [gioIdTruthy, hid] at htr; exact absurd htr (by simp)
      | some s =>
        have hne : s ≠ "" := by
          rw [gioIdTruthy, hid] at htr
          simpa using htr
        have hgio : gioNormIds (a :: rest) = normId s :: gioNormIds rest := by
          simp [gioNormIds, List.filter_cons, hs, hid, pyOrStr_some_of_ne s "" hne]
        rw [hgio]
        have hstep : (gioScan (a :: rest) seen acc).1 =
            (gioScan rest (normId s :: seen) (acc ++ [gioEntry a])).1 := by
          simp [gioScan, hs, hid, hne]
        rw [hstep, ih (normId s :: seen) (acc ++ [gioEntry a]) hrest n]
        simp [List.mem_cons]
        tauto
    · have hgio : gioNormIds (a :: rest) = gioNormIds rest := by
        simp [gioNormIds, List.filter_cons, hs]
      have hstep : (gioScan (a :: rest) seen acc).1 = (gioScan rest seen acc).1 := by
        simp [gioScan, hs]
      rw [hgio, hstep, ih seen acc hrest n]

theorem appsNormIds_gioEntries (apps : List GioApp)
    (h : ∀ a ∈ apps, a.should_show = true → gioIdTruthy a = true) :
    appsNormIds ((apps.filter (fun a => a.should_show)).map gioEntry) =
      gioNormIds apps := by
  have hall : ∀ d ∈ (apps.filter (fun a => a.should_show)).map gioEntry,
      (fun d => d.group == "Applications") d = true := by
    intro d hd
    rcases List.mem_map.mp hd with ⟨a, _, rfl⟩
    simp [gioEntry_group]
  unfold appsNormIds gioNormIds
  rw [List.filter_eq_self.mpr hall, List.map_map]
  apply List.map_congr_left
  intro a ha
  have hshow : a.should_show = true := (List.mem_filter.mp ha).2
  have htr : gioIdTruthy a = true := h a (List.mem_filter.mp ha).1 hshow
  cases hid : a.id with
  | none => rw [gioIdTruthy, hid] at htr; exact absurd htr (by simp)
  | some s =>
    have hne : s ≠ "" := by
      rw [gioIdTruthy, hid] at htr
      simpa using htr
    simp [gioEntry, hid, pyOrStr_some_of_ne s _ hne]

/-- Invariant carried through the filesystem scan: the Applications
entries collected so far have pairwise distinct normalized ids, all of
which are recorded in the seen set. -/
def ScanInv (seen : List String) (acc : List ActionDesc) : Prop :=
  (appsNormIds acc).Nodup ∧ ∀ n ∈ appsNormIds acc, n ∈ seen

theorem fileScan_inv (env : String → String → Option DesktopGio × Option (List String))
    (path : String) (files : List String) :
    ∀ (seen : List String) (acc : List ActionDesc), ScanInv seen acc →
    ScanInv (fileScan env path files seen acc).1 (fileScan env path files seen acc).2 := by
  induction files with
  | nil => intro seen acc hinv; exact hinv
  | cons f fs ih =>
    intro seen acc hinv
    by_cases hdesk : pyEndsWith f ".desktop" = true
    · by_cases hmem : pyDropRight f 8 ∈ seen
      · have hstep : fileScan env path (f :: fs) seen acc = fileScan env path fs seen acc := by
          simp [fileScan, hdesk, hmem]
        rw [hstep]
        exact ih seen acc hinv
      · have hstep : fileScan env path (f :: fs) seen acc =
            fileScan env path fs (pyDropRight f 8 :: seen)
              (acc ++ [parse_desktop_file path f (env path f).1 (env path f).2]) := by
          simp [fileScan, hdesk, hmem]
        rw [hstep]
        apply ih
        have hids : appsNormIds
            (acc ++ [parse_desktop_file path f (env path f).1 (env path f).2]) =
            appsNormIds acc ++ [pyDropRight f 8] := by
          rw [appsNormIds_append, appsNormIds_parse_single, normId_of_desktop f hdesk]
        constructor
        · rw [hids, List.Perm.nodup_iff (List.perm_append_singleton _ _), List.nodup_cons]
          exact ⟨fun hin => hmem (hinv.2 _ hin), hinv.1⟩
        · intro n hn
          rw [hids] at hn
          rcases List.mem_append.mp hn with hl | hr
          · exact List.mem_cons_of_mem _ (hinv.2 n hl)
          · simp only [List.mem_singleton] at hr
            rw [hr]
            exact List.mem_cons_self _ _
    · have hstep : fileScan env path (f :: fs) seen acc = fileScan env path fs seen acc := by
        simp [fileScan, hdesk]
      rw [hstep]
      exact ih seen acc hinv

theorem dirScan_inv (env : String → String → Option DesktopGio × Option (List String))
    (dirs : List ScanDir) :
    ∀ (seen : List String) (acc : List ActionDesc), ScanInv seen acc →
    ScanInv (dirScan env dirs seen acc).1 (dirScan env dirs seen acc).2 := by
  induction dirs with
  | nil => intro seen acc hinv; exact hinv
  | cons d rest ih =>
    intro seen acc hinv
    cases hl : d.listing with
    | none =>
      have hstep : dirScan env (d :: rest) seen acc = dirScan env rest seen acc := by
        simp [dirScan, hl]
      rw [hstep]
      exact ih seen acc hinv
    | some files =>
      have hstep : dirScan env (d :: rest) seen acc =
          dirScan env rest (fileScan env d.path files seen acc).1
            (fileScan env d.path files seen acc).2 := by
        simp [dirScan, hl]
      rw [hstep]
      exact ih _ _ (fileScan_inv env d.path files seen acc hinv)

theorem insertByName_perm (a : ActionDesc) (l : List ActionDesc) :
    (insertByName a l).Perm (a :: l) := by
  induction l with
  | nil => exact List.Perm.refl _
  | cons b bs ih =>
    unfold insertByName
    by_cases h : listStrLe (pyLower a.name).data (pyLower b.name).data = true
    · rw [if_pos h]
    · rw [if_neg h]
      exact (ih.cons b).trans (List.Perm.swap a b bs)

theorem sortByName_perm (l : List ActionDesc) : (sortByName l).Perm l := by
  induction l with
  | nil => exact List.Perm.refl _
  | cons a as ih =>
    exact (insertByName_perm a (sortByName as)).trans (ih.cons a)

theorem appsNormIds_builtins : appsNormIds builtins = [] := by decide

theorem appsNormIds_custom : appsNormIds [customEntry] = [] := by decide

/-- C7 (amended): provided every user-visible platform-registry entry
has a truthy identifier and those identifiers are pairwise distinct
after normalization (the code performs no deduplication inside the
registry pass itself — `C7_counterexample`), `AppScanner.get_all_actions`
never returns two `Applications`-group entries with the same normalized
identifier; unconditionally, the four built-in entries appear first in
their fixed order and the synthetic Custom Command entry appears
last. -/
theorem C7_scanner_shape (gioApps : List GioApp) (dirs : List ScanDir)
    (env : String → String → Option DesktopGio × Option (List String)) :
    ((∀ a ∈ gioApps, a.should_show = true → gioIdTruthy a = true) →
      (gioNormIds gioApps).Nodup →
      (appsNormIds (get_all_actions gioApps dirs env)).Nodup) ∧
    (get_all_actions gioApps dirs env).take 4 = builtins ∧
    (get_all_actions gioApps dirs env).getLast? = some customEntry := by
  refine ⟨fun h1 h2 => ?_, ?_, ?_⟩
  · have hentries : (gioScan gioApps [] []).2 =
        (gioApps.filter (fun a => a.should_show)).map gioEntry := by
      simpa using gioScan_entries gioApps [] []
    have hgio_ids : appsNormIds (gioScan gioApps [] []).2 = gioNormIds gioApps := by
      rw [hentries]
      exact appsNormIds_gioEntries gioApps h1
    have hinv0 : ScanInv (gioScan gioApps [] []).1 (gioScan gioApps [] []).2 := by
      constructor
      · rw [hgio_ids]; exact h2
      · intro n hn
        rw [hgio_ids] at hn
        exact (gioScan_seen_mem gioApps [] [] h1 n).mpr (Or.inr hn)
    have hinv := dirScan_inv env dirs _ _ hinv0
    show (appsNormIds (builtins ++ sortByName (dirScan env dirs (gioScan gioApps [] []).1
      (gioScan gioApps [] []).2).2 ++ [customEntry])).Nodup
    rw [appsNormIds_append, appsNormIds_append, appsNormIds_builtins, appsNormIds_custom]
    simp only [List.nil_append, List.append_nil]
    have hperm : (appsNormIds (sortByName (dirScan env dirs (gioScan gioApps [] []).1
        (gioScan gioApps [] []).2).2)).Perm
        (appsNormIds (dirScan env dirs (gioScan gioApps [] []).1
          (gioScan gioApps [] []).2).2) := by
      unfold appsNormIds
      exact ((sortByName_perm _).filter _).map _
    exact hperm.nodup_iff.mpr hinv.1
  · show (builtins ++ sortByName _ ++ [customEntry]).take 4 = builtins
    rw [List.append_assoc]
    exact List.take_left' rfl
  · show (builtins ++ sortByName _ ++ [customEntry]).getLast? = some customEntry
    exact List.getLast?_concat _

theorem C7_scanner_shape_witness :
    (appsNormIds (get_all_actions
      [⟨true, some "b.desktop", "Beta", none, none, none⟩]
      [⟨"/usr/share/applications", some ["a.desktop"]⟩]
      (fun _ _ => (none, none)))).Nodup ∧
    (get_all_actions
      [⟨true, some "b.desktop", "Beta", none, none, none⟩]
      [⟨"/usr/share/applications", some ["a.desktop"]⟩]
      (fun _ _ => (none, none))).take 4 = builtins ∧
    (get_all_actions
      [⟨true, some "b.desktop", "Beta", none, none, none⟩]
      [⟨"/usr/share/applications", some ["a.desktop"]⟩]
      (fun _ _ => (none, none))).getLast? = some customEntry :=
  ⟨(C7_scanner_shape [⟨true, some "b.desktop", "Beta", none, none, none⟩]
      [⟨"/usr/share/applications", some ["a.desktop"]⟩]
      (fun _ _ => (none, none))).1 (by decide) (by decide),
   (C7_scanner_shape [⟨true, some "b.desktop", "Beta", none, none, none⟩]
      [⟨"/usr/share/applications", some ["a.desktop"]⟩]
      (fun _ _ => (none, none))).2.1,
   (C7_scanner_shape [⟨true, some "b.desktop", "Beta", none, none, none⟩]
      [⟨"/usr/share/applications", some ["a.desktop"]⟩]
      (fun _ _ => (none, none))).2.2⟩

/-- C7 counterexample: the registry pass performs no deduplication of
its own — two visible registry entries carrying the same id
`"a.desktop"` both reach the result, so the `Applications` group holds
two entries with normalized identifier `"a"` and the claim's universal
no-duplicates guarantee fails. -/
theorem C7_counterexample :
    ¬ (appsNormIds (get_all_actions
      [⟨true, some "a.desktop", "A", none, none, none⟩,
       ⟨true, some "a.desktop", "A", none, none, none⟩] []
      (fun _ _ => (none, none)))).Nodup := by decide

/-- C10: `_parse_desktop_file` always returns a descriptor (every parse
and I/O failure is modelled by absent inputs — the function is total)
with `type = "app"`, `group = "Applications"`, `action` equal to the
file name, `name` falling back to the file name whenever the extraction
pipeline produced no truthy name, `icon` falling back to
`"system-run-symbolic"` whenever the extracted icon is falsy, and
`is_flatpak` true exactly when `"flatpak"` occurs case-insensitively in
the source directory path. -/
theorem C10_parse_desktop_file (path fn : String) (gio : Option DesktopGio)
    (content : Option (List String)) :
    (parse_desktop_file path fn gio content).type = "app" ∧
    (parse_desktop_file path fn gio content).group = "Applications" ∧
    (parse_desktop_file path fn gio content).action = fn ∧
    (optFalsy (parseFinalState gio content).name = true →
      (parse_desktop_file path fn gio content).name = fn) ∧
    ((parseFinalState gio content).icon = "" →
      (parse_desktop_file path fn gio content).icon = "system-run-symbolic") ∧
    ((parse_desktop_file path fn gio content).is_flatpak =
      pyInStr "flatpak" (pyLower path)) := by
  refine ⟨rfl, rfl, rfl, ?_, ?_, rfl⟩
  · intro h
    show pyOrStr (parseFinalState gio content).name fn = fn
    exact pyOrStr_of_falsy _ fn h
  · intro h
    show (if (parseFinalState gio content).icon == "" then "system-run-symbolic"
          else (parseFinalState gio content).icon) = "system-run-symbolic"
    simp [h]

theorem C10_parse_desktop_file_witness :
    (parse_desktop_file "/usr/share/applications" "foo.desktop" none
      (some ["[Desktop Entry]", "Icon="])).type = "app" ∧
    (parse_desktop_file "/usr/share/applications" "foo.desktop" none
      (some ["[Desktop Entry]", "Icon="])).group = "Applications" ∧
    (parse_desktop_file "/usr/share/applications" "foo.desktop" none
      (some ["[Desktop Entry]", "Icon="])).action = "foo.desktop" ∧
    (parse_desktop_file "/usr/share/applications" "foo.desktop" none
      (some ["[Desktop Entry]", "Icon="])).name = "foo.desktop" ∧
    (parse_desktop_file "/usr/share/applications" "foo.desktop" none
      (some ["[Desktop Entry]", "Icon="])).icon = "system-run-symbolic" ∧
    ((parse_desktop_file "/usr/share/applications" "foo.desktop" none
      (some ["[Desktop Entry]", "Icon="])).is_flatpak =
      pyInStr "flatpak" (pyLower "/usr/share/applications")) := by
  have h := C10_parse_desktop_file "/usr/share/applications" "foo.desktop" none
    (some ["[Desktop Entry]", "Icon="])
  exact ⟨h.1, h.2.1, h.2.2.1, h.2.2.2.1 (by decide), h.2.2.2.2.1 (by decide), h.2.2.2.2.2⟩

/-! ## Label geometry (`quickeyWindow._get_label_pos`, window.py:411-439)

The claim is stated over exact real arithmetic with rounding applied only
at the final pixel-assignment step, so the geometry is modelled over `ℝ`:
`labelPosCore` is the body of `_get_label_pos` before the final
`int(round(.))`, and `get_label_pos` applies that rounding. -/

/-- Python's `round` on a real (round-half-to-even, returning an
integer). -/
noncomputable def pyRound (x : ℝ) : ℤ :=
  if Int.fract x < 1 / 2 then ⌊x⌋
  else if 1 / 2 < Int.fract x then ⌊x⌋ + 1
  else if ⌊x⌋ % 2 = 0 then ⌊x⌋ else ⌊x⌋ + 1

/-- Python's `%` on reals with a positive modulus:
`a - b * floor(a / b)`, always in `[0, b)`. -/
noncomputable def pyMod (a b : ℝ) : ℝ := a - b * ⌊a / b⌋

/-- The rounded-degree discriminant of `_get_label_pos`
(window.py:416-417): `deg = round(math.degrees(angle % (2*pi))) % 360`. -/
noncomputable def labelDeg (angle : ℝ) : ℤ :=
  pyRound (pyMod angle (2 * Real.pi) * 180 / Real.pi) % 360

/-- The button center `(bx, by)` of window.py:422-423. -/
noncomputable def buttonCenter (angle base_radius : ℝ) : ℝ × ℝ :=
  (300 + base_radius * Real.cos angle, 300 + base_radius * Real.sin angle)

/-- `_get_label_pos` (window.py:411-439) before the final rounding:
cardinal special cases at rounded degrees 270/90 (centered on the
window's x-axis) and 0/180 (centered on the window's y-axis), diagonals
anchored by the corner nearest the ray direction.  `byy` is the source's
`by` (a reserved word in Lean). -/
noncomputable def labelPosCore (nw nh angle base_radius gap button_radius : ℝ) :
    ℝ × ℝ :=
  let center_x : ℝ := 300
  let center_y : ℝ := 300
  let deg := labelDeg angle
  let dx := Real.cos angle
  let dy := Real.sin angle
  let bx := center_x + base_radius * dx
  let byy := center_y + base_radius * dy
  if deg = 270 ∨ deg = 90 then
    (center_x - nw / 2,
     if deg = 270 then byy - button_radius - gap - nh else byy + button_radius + gap)
  else if deg = 0 ∨ deg = 180 then
    ((if deg = 0 then bx + button_radius + gap else bx - button_radius - gap - nw),
     center_y - nh / 2)
  else
    let anchor_x := bx + (button_radius + gap) * dx
    let anchor_y := byy + (button_radius + gap) * dy
    ((if dx > 0 then anchor_x else anchor_x - nw),
     (if dy > 0 then anchor_y else anchor_y - nh))

/-- The full `_get_label_pos`, with the final
`(int(round(lx)), int(round(ly)))` of window.py:439. -/
noncomputable def get_label_pos (nw nh angle base_radius gap button_radius : ℝ) :
    ℤ × ℤ :=
  let pos := labelPosCore nw nh angle base_radius gap button_radius
  (pyRound pos.1, pyRound pos.2)

theorem pyMod_of_nonneg_lt (a b : ℝ) (hb : 0 < b) (h0 : 0 ≤ a) (hab : a < b) :
    pyMod a b = a := by
  unfold pyMod
  have hfloor : ⌊a / b⌋ = 0 :=
    Int.floor_eq_zero_iff.mpr ⟨div_nonneg h0 hb.le, (div_lt_one hb).mpr hab⟩
  rw [hfloor]
  push_cast
  ring

theorem pyRound_intCast (n : ℤ) : pyRound (n : ℝ) = n := by
  unfold pyRound
  rw [Int.fract_intCast, Int.floor_intCast]
  norm_num

theorem labelDeg_pi_div_two : labelDeg (Real.pi / 2) = 90 := by
  unfold labelDeg
  have hmod : pyMod (Real.pi / 2) (2 * Real.pi) = Real.pi / 2 :=
    pyMod_of_nonneg_lt _ _ (by positivity) (by positivity)
      (by nlinarith [Real.pi_pos])
  rw [hmod]
  have hdeg : Real.pi / 2 * 180 / Real.pi = ((90 : ℤ) : ℝ) := by
    push_cast
    field_simp
    ring
  rw [hdeg, pyRound_intCast]
  decide

theorem labelDeg_three_pi_div_two : labelDeg (3 * Real.pi / 2) = 270 := by
  unfold labelDeg
  have hmod : pyMod (3 * Real.pi / 2) (2 * Real.pi) = 3 * Real.pi / 2 :=
    pyMod_of_nonneg_lt _ _ (by positivity) (by positivity)
      (by nlinarith [Real.pi_pos])
  rw [hmod]
  have hdeg : 3 * Real.pi / 2 * 180 / Real.pi = ((270 : ℤ) : ℝ) := by
    push_cast
    field_simp
    ring
  rw [hdeg, pyRound_intCast]
  decide

theorem labelDeg_zero : labelDeg 0 = 0 := by
  unfold labelDeg
  have hmod : pyMod 0 (2 * Real.pi) = 0 :=
    pyMod_of_nonneg_lt _ _ (by positivity) le_rfl (by positivity)
  rw [hmod]
  have hdeg : (0 : ℝ) * 180 / Real.pi = ((0 : ℤ) : ℝ) := by
    push_cast
    ring
  rw [hdeg, pyRound_intCast]
  decide

theorem labelDeg_pi : labelDeg Real.pi = 180 := by
  unfold labelDeg
  have hmod : pyMod Real.pi (2 * Real.pi) = Real.pi :=
    pyMod_of_nonneg_lt _ _ (by positivity) (by positivity)
      (by nlinarith [Real.pi_pos])
  rw [hmod]
  have hdeg : Real.pi * 180 / Real.pi = ((180 : ℤ) : ℝ) := by
    push_cast
    field_simp
  rw [hdeg, pyRound_intCast]
  decide

theorem labelPosCore_fst_of_vertical (nw nh angle base_radius gap button_radius : ℝ)
    (h : labelDeg angle = 270 ∨ labelDeg angle = 90) :
    (labelPosCore nw nh angle base_radius gap button_radius).1 = 300 - nw / 2 := by
  unfold labelPosCore
  rw [if_pos h]

theorem labelPosCore_snd_of_horizontal (nw nh angle base_radius gap button_radius : ℝ)
    (h : labelDeg angle = 0 ∨ labelDeg angle = 180) :
    (labelPosCore nw nh angle base_radius gap button_radius).2 = 300 - nh / 2 := by
  unfold labelPosCore
  have hnot : ¬(labelDeg angle = 270 ∨ labelDeg angle = 90) := by
    rcases h with h | h <;> rw [h] <;> decide
  rw [if_neg hnot, if_pos h]

/-- C8: over exact real arithmetic (rounding applied only at the final
pixel-assignment step), `_get_label_pos` at an angle of exactly 90° or
270° (π/2 or 3π/2 radians) returns a position whose horizontal center
`x + nw/2` equals the button's x-coordinate, and at exactly 0° or 180°
returns a position whose vertical center `y + nh/2` equals the button's
y-coordinate. -/
theorem C8_label_cardinal_centering (nw nh base_radius gap button_radius : ℝ) :
    (∀ angle : ℝ, (angle = Real.pi / 2 ∨ angle = 3 * Real.pi / 2) →
      (labelPosCore nw nh angle base_radius gap button_radius).1 + nw / 2 =
        (buttonCenter angle base_radius).1) ∧
    (∀ angle : ℝ, (angle = 0 ∨ angle = Real.pi) →
      (labelPosCore nw nh angle base_radius gap button_radius).2 + nh / 2 =
        (buttonCenter angle base_radius).2) := by
  constructor
  · intro angle hangle
    have hcos : Real.cos angle = 0 := by
      rcases hangle with rfl | rfl
      · exact Real.cos_pi_div_two
      · have h32 : 3 * Real.pi / 2 = Real.pi + Real.pi / 2 := by ring
        rw [h32, Real.cos_add, Real.cos_pi, Real.sin_pi, Real.cos_pi_div_two,
          Real.sin_pi_div_two]
        ring
    have hdeg : labelDeg angle = 270 ∨ labelDeg angle = 90 := by
      rcases hangle with rfl | rfl
      · exact Or.inr labelDeg_pi_div_two
      · exact Or.inl labelDeg_three_pi_div_two
    rw [labelPosCore_fst_of_vertical nw nh angle base_radius gap button_radius hdeg]
    unfold buttonCenter
    rw [hcos]
    ring
  · intro angle hangle
    have hsin : Real.sin angle = 0 := by
      rcases hangle with rfl | rfl
      · exact Real.sin_zero
      · exact Real.sin_pi
    have hdeg : labelDeg angle = 0 ∨ labelDeg angle = 180 := by
      rcases hangle with rfl | rfl
      · exact Or.inl labelDeg_zero
      · exact Or.inr labelDeg_pi
    rw [labelPosCore_snd_of_horizontal nw nh angle base_radius gap button_radius hdeg]
    unfold buttonCenter
    rw [hsin]
    ring

theorem C8_label_cardinal_centering_witness :
    (labelPosCore 10 4 (Real.pi / 2) 100 15 24).1 + 10 / 2 =
      (buttonCenter (Real.pi / 2) 100).1 ∧
    (labelPosCore 10 4 0 100 15 24).2 + 4 / 2 = (buttonCenter 0 100).2 :=
  ⟨(C8_label_cardinal_centering 10 4 100 15 24).1 (Real.pi / 2) (Or.inl rfl),
   (C8_label_cardinal_centering 10 4 100 15 24).2 0 (Or.inl rfl)⟩
